/-
  Verification of the kajabi-tracker agency-data fetch/merge pipeline.

  The development shallowly embeds the two pipeline variants of the repository:
    * `src/scripts/fetch-tiktok-data.mjs`  (signed open-API variant; "mjs" below)
    * the internal-session-API variant      ("part3" below)
  together with the bookmarklet pagination loop ("part000" below).

  Conventions of the embedding:
    * JS numbers arising from `parseFloat` / `parseInt` are modelled by
      `JNum := Option ℚ`, where `none` stands for NaN.
    * Raw JSON field values are modelled by `RawVal` (absent, string or number),
      with JS truthiness made explicit.
    * `parseFloat` is modelled for simple decimal literals (optional sign,
      digits, optional fractional part); exponents, `Infinity` and leading
      whitespace do not occur in the payloads under consideration.
    * ISO-8601 date strings are compared with the lexicographic order on
      `String`; for such strings JS `localeCompare` agrees with it.
    * The stable in-place `Array.prototype.sort` (stable per the ES2019
      specification) is modelled by a stable insertion sort.
-/
import Mathlib

namespace KajabiTracker

/-! ## JS value model -/

/-- A JS number as produced by `parseFloat`/`parseInt`: either a real numeric
value (rational) or NaN (`none`). -/
abbrev JNum := Option ℚ

/-- A raw JSON field value: absent (`undefined`/`null`), a string, or a number. -/
inductive RawVal where
  | undef : RawVal
  | str : String → RawVal
  | num : ℚ → RawVal
deriving DecidableEq, Repr

/-- JS truthiness of a raw JSON value: `undefined`, `""` and `0` are falsy. -/
def RawVal.truthy : RawVal → Bool
  | .undef => false
  | .str s => s ≠ ""
  | .num q => q ≠ 0

/-- JS `a || b`: `a` if truthy, otherwise `b`. -/
def orv (a b : RawVal) : RawVal := if a.truthy then a else b

/-- Value of a digit character. -/
def digitVal (c : Char) : ℕ := c.toNat - '0'.toNat

/-- Natural number denoted by a digit list (most significant first). -/
def digitsToNat (ds : List Char) : ℕ := ds.foldl (fun acc c => 10 * acc + digitVal c) 0

/-- Model of JS `parseFloat` on a string: parse an optional sign followed by
the longest prefix matching `digits [. digits]`; if that prefix contains no
digit at all the result is NaN (`none`).  (Exponents, `Infinity` and leading
whitespace are not modelled; they do not occur in the data handled here.) -/
def parseFloatChars (cs : List Char) : Option ℚ :=
  let (sign, rest) :=
    match cs with
    | '-' :: t => ((-1 : ℚ), t)
    | '+' :: t => ((1 : ℚ), t)
    | t => ((1 : ℚ), t)
  let intPart := rest.takeWhile Char.isDigit
  let rest2 := rest.dropWhile Char.isDigit
  let fracPart :=
    match rest2 with
    | '.' :: t => t.takeWhile Char.isDigit
    | _ => []
  if intPart.isEmpty ∧ fracPart.isEmpty then none
  else
    some (sign * ((digitsToNat intPart : ℚ) +
      (digitsToNat fracPart : ℚ) / (10 : ℚ) ^ fracPart.length))

/-- Model of JS `parseFloat` applied to a raw JSON value.  `parseFloat` of a
number round-trips (finite JSON numbers print and re-parse exactly);
`parseFloat(undefined)` is NaN. -/
def jsParseFloat : RawVal → JNum
  | .undef => none
  | .str s => parseFloatChars s.toList
  | .num q => some q

/-- Model of JS number-to-string coercion as used in template literals.
NaN prints as `"NaN"`; numeric values are printed injectively (JS decimal
formatting and rational formatting agree on integers and are both injective,
which is all the identity-key construction relies on). -/
def jsNumToString : JNum → String
  | none => "NaN"
  | some q => toString q

/-! ## Canonical record types (§3 of the spec; shapes produced by both variants) -/

/-- Canonical creator payout record
(`fetch-tiktok-data.mjs` `fetchSettlements`, part_003 `formatCreatorPayouts`). -/
structure CreatorPayout where
  payment_id : String
  date : String
  settlement_amount : JNum
  amount_paid : JNum
deriving DecidableEq, Repr

/-- Canonical distribution payout record
(`fetch-tiktok-data.mjs` `fetchStatements`, part_003 `formatDistPayouts`). -/
structure DistPayout where
  statement_id : String
  date : String
  settlement_amount : JNum
  amount_paid : JNum
  type : String
  currency : String
deriving DecidableEq, Repr

/-- Payment record as produced by `fetchPayments` in `fetch-tiktok-data.mjs`. -/
structure PaymentRec where
  payment_id : String
  date : String
  amount : JNum
  status : String
  type : String
  currency : String
deriving DecidableEq, Repr

/-- Identity key of a creator payout, `fetch-tiktok-data.mjs` line 362:
`p.payment_id || `${p.date}-${p.amount_paid}``. -/
def creatorKey (p : CreatorPayout) : String :=
  if p.payment_id ≠ "" then p.payment_id
  else p.date ++ "-" ++ jsNumToString p.amount_paid

/-- Identity key of a distribution payout, `fetch-tiktok-data.mjs` line 407:
`p.statement_id || `${p.date}-${p.amount_paid}-${p.type}``. -/
def distKey (p : DistPayout) : String :=
  if p.statement_id ≠ "" then p.statement_id
  else p.date ++ "-" ++ jsNumToString p.amount_paid ++ "-" ++ p.type

/-- Date projection for creator payouts. -/
def cDate (p : CreatorPayout) : String := p.date

/-- Date projection for distribution payouts. -/
def dDate (p : DistPayout) : String := p.date

/-! ## Dedup & merge engine (§4.3)

`fetch-tiktok-data.mjs` lines 359-367 (creator) and 403-413 (distribution):
concatenate incoming before existing, keep the first occurrence of each
identity key (a `filter` over a `seen` set), then sort by date descending
with the stable `Array.prototype.sort` and the comparator
`(a, b) => b.date.localeCompare(a.date)`. -/

variable {α : Type}

/-- One pass of the `seen`-set duplicate filter: keep a record iff its key has
not been seen, adding kept keys to `seen`. -/
def dedupKeysAux (key : α → String) : List String → List α → List α
  | _, [] => []
  | seen, x :: xs =>
    if key x ∈ seen then dedupKeysAux key seen xs
    else x :: dedupKeysAux key (key x :: seen) xs

/-- Keep the first occurrence of each identity key. -/
def dedupKeys (key : α → String) (l : List α) : List α := dedupKeysAux key [] l

/-- Lexicographic ≤ on character lists. -/
def charListLe : List Char → List Char → Bool
  | [], _ => true
  | _ :: _, [] => false
  | a :: as, b :: bs => if a < b then true else if b < a then false else charListLe as bs

/-- Lexicographic ≤ on strings; on ISO-8601 date strings this is exactly the
order computed by the comparator `(a, b) => b.date.localeCompare(a.date)`. -/
def strLe (a b : String) : Bool := charListLe a.toList b.toList

/-- Stable descending-by-date insertion: `x` is placed before the first
element whose date is ≤ the date of `x` (so equal dates keep original order,
matching a stable sort under the comparator `b.date.localeCompare(a.date)`). -/
def insertDateDesc (date : α → String) (x : α) : List α → List α
  | [] => [x]
  | y :: ys => if strLe (date y) (date x) then x :: y :: ys else y :: insertDateDesc date x ys

/-- Stable sort by date descending. -/
def sortDateDesc (date : α → String) : List α → List α
  | [] => []
  | x :: xs => insertDateDesc date x (sortDateDesc date xs)

/-- The merge of §4.3: incoming concatenated before existing, first occurrence
of each key kept, result sorted by date descending (stable). -/
def mergeRecords (key : α → String) (date : α → String)
    (existing incoming : List α) : List α :=
  sortDateDesc date (dedupKeys key (incoming ++ existing))

/-- Creator-payout merge, `fetch-tiktok-data.mjs` lines 359-367. -/
def mergeCreator (existing incoming : List CreatorPayout) : List CreatorPayout :=
  mergeRecords creatorKey cDate existing incoming

/-- Distribution-payout merge, `fetch-tiktok-data.mjs` lines 403-413. -/
def mergeDist (existing incoming : List DistPayout) : List DistPayout :=
  mergeRecords distKey dDate existing incoming

/-- Collection sorted by date descending (spec §3 invariant
"Collections are kept sorted by `date` descending"). -/
def dateSorted (date : α → String) (l : List α) : Prop :=
  List.Chain' (fun a b => strLe (date b) (date a) = true) l

/-- Executable check of `dateSorted`. -/
def dateSortedB (date : α → String) : List α → Bool
  | [] => true
  | [_] => true
  | x :: y :: t => strLe (date y) (date x) && dateSortedB date (y :: t)

/-! ## Analytics snapshot (§3) -/

/-- Metrics object returned by a successful analytics fetch
(`fetchAnalytics` in `fetch-tiktok-data.mjs`, `fetchAffiliateAnalytics` in
part_003); fields come from `parseFloat`/`parseInt` so they are `JNum`. -/
structure Metrics where
  affiliate_gmv : JNum
  est_commission : JNum
  orders : JNum
  gmv_refund : JNum
deriving DecidableEq, Repr

/-- Persisted analytics record; the stored file may lack any of the fields,
hence every field is optional. -/
structure Analytics where
  affiliate_gmv : Option JNum
  est_commission : Option JNum
  orders : Option JNum
  gmv_refund : Option JNum
  last_updated : Option String
deriving DecidableEq, Repr

/-- Analytics commit, identical in both variants
(`fetch-tiktok-data.mjs` lines 415-428, part_003 lines 364-369):
`{...existing, ...(metrics || {}), last_updated: today}` — a successful fetch
replaces every metric field, and `last_updated` is set to the run date in
either case. -/
def updateAnalytics (existing : Analytics) (fetched : Option Metrics)
    (today : String) : Analytics :=
  match fetched with
  | some m =>
    { affiliate_gmv := some m.affiliate_gmv
      est_commission := some m.est_commission
      orders := some m.orders
      gmv_refund := some m.gmv_refund
      last_updated := some today }
  | none => { existing with last_updated := some today }

/-- The durable root object (§3). -/
structure PersistedState where
  analytics : Analytics
  payouts : List CreatorPayout
  distribution_payouts : List DistPayout
deriving DecidableEq, Repr

/-! ## Per-category commits of `fetch-tiktok-data.mjs` `main` -/

/-- Creator-payout commit, `fetch-tiktok-data.mjs` lines 354-370.
`settlements` is the result of `fetchSettlements`: `none` models the `null`
returned on error or missing `settlement_list`, `some l` the mapped list
(possibly empty when the source explicitly returned an empty list).  The
merge runs only under `if (settlements && settlements.length > 0)`. -/
def mjsCreatorCommit (existing : List CreatorPayout)
    (settlements : Option (List CreatorPayout)) : List CreatorPayout :=
  match settlements with
  | some l => if 0 < l.length then mergeCreator existing l else existing
  | none => existing

/-- Re-projection of a payment record into a distribution payout,
`fetch-tiktok-data.mjs` lines 392-399. -/
def paymentToDist (p : PaymentRec) : DistPayout :=
  { statement_id := p.payment_id
    date := p.date
    settlement_amount := p.amount
    amount_paid := p.amount
    type := if p.type ≠ "" then p.type else "payment"
    currency := p.currency }

/-- Distribution-payout commit, `fetch-tiktok-data.mjs` lines 372-413.
Statements are prepended first, then payments are prepended in front of them;
the dedup-and-sort block then runs whenever the accumulated list is
non-empty — in particular it also re-dedups and re-sorts the existing
collection when no new data arrived but the collection is non-empty. -/
def mjsDistCommit (existing : List DistPayout)
    (v2Statements : Option (List DistPayout))
    (v2Payments : Option (List PaymentRec)) : List DistPayout :=
  let d := existing
  let d := match v2Statements with
    | some l => if 0 < l.length then l ++ d else d
    | none => d
  let d := match v2Payments with
    | some l => if 0 < l.length then l.map paymentToDist ++ d else d
    | none => d
  if 0 < d.length then sortDateDesc dDate (dedupKeys distKey d) else d

/-- Whole-run commit of `fetch-tiktok-data.mjs` `main` (lines 334-447) for a
run in which the credentials are present: the updated state written exactly
once at the end. -/
def mjsRun (existing : PersistedState)
    (settlements : Option (List CreatorPayout))
    (v2Statements : Option (List DistPayout))
    (v2Payments : Option (List PaymentRec))
    (analytics : Option Metrics) (today : String) : PersistedState :=
  { analytics := updateAnalytics existing.analytics analytics today
    payouts := mjsCreatorCommit existing.payouts settlements
    distribution_payouts := mjsDistCommit existing.distribution_payouts v2Statements v2Payments }

/-! ## part_003 run model -/

/-- Failure of the part_003 fetch phase: an `AUTH_EXPIRED: ...` error thrown
by `apiRequest` or any other thrown error (HTTP failure etc.). -/
inductive FetchErr where
  | authExpired (msg : String)
  | other (msg : String)
deriving DecidableEq, Repr

/-- Non-regression guard of part_003 `main`, lines 344-354: the run bails out
(without writing) only when BOTH freshly fetched categories are empty while
the existing data has records in either category. -/
def part3Guard (existing : PersistedState)
    (distPayouts : List DistPayout) (creatorPayouts : List CreatorPayout) : Bool :=
  distPayouts.length == 0 && creatorPayouts.length == 0 &&
    (existing.distribution_payouts.length > 0 || existing.payouts.length > 0)

/-- part_003 `main`, lines 331-395, for a run with the session cookie set.
`fetched` holds the formatted payout lists of the two `fetchAllPayouts`
calls (`.error` models a throw from the fetch phase, in which case the
`catch` block keeps `agency-data.json` unchanged and exits 0).  The result
is `some st` when the run writes the file (exactly once, at the end) and
`none` when the run exits without writing. -/
def part3Run (existing : PersistedState)
    (fetched : Except FetchErr (List DistPayout × List CreatorPayout))
    (metrics : Option Metrics) (today : String) : Option PersistedState :=
  match fetched with
  | .error _ => none
  | .ok (rawDist, rawCreator) =>
    let distPayouts := sortDateDesc dDate rawDist
    let creatorPayouts := sortDateDesc cDate rawCreator
    if part3Guard existing distPayouts creatorPayouts then none
    else some
      { analytics := updateAnalytics existing.analytics metrics today
        payouts := creatorPayouts
        distribution_payouts := distPayouts }

/-! ## Auth-failure classifiers (§4.5)

part_003 has two distinct classifiers: one inside `apiRequest`
(lines 66-73) applied to every Partner-Center JSON response, and one inside
`fetchAffiliateAnalytics` (lines 205-214) applied to failed affiliate
responses. -/

/-- A JSON API response as inspected by the classifiers: its numeric `code`
(absent when the field is missing) and its optional `message`. -/
structure ApiResponse where
  code : Option Int
  message : Option String
deriving DecidableEq, Repr

/-- Is `needle` a prefix of `hay` (JS-style character comparison)? -/
def startsWithChars : List Char → List Char → Bool
  | _, [] => true
  | [], _ :: _ => false
  | h :: t, n :: ns => h == n && startsWithChars t ns

/-- JS `String.prototype.includes`: does `needle` occur as a contiguous
substring of `hay`? -/
def containsSub : List Char → List Char → Bool
  | [], needle => needle.isEmpty
  | h :: t, needle => startsWithChars (h :: t) needle || containsSub t needle

/-- `m?.toLowerCase().includes(needle)` with optional chaining: `false` when
the message is absent.  (`Char.toLower` agrees with JS `toLowerCase` on the
ASCII messages involved.) -/
def msgHas (m : Option String) (needle : String) : Bool :=
  match m with
  | none => false
  | some s => containsSub (s.toList.map Char.toLower) needle.toList

/-- Classifier of `apiRequest` (part_003 lines 66-73): the response is
treated as `AUTH_EXPIRED` iff its code is 10000, 10001, 401 or 16201010, or
its message contains (case-insensitively) `login`, `auth` or `session`. -/
def partnerAuthExpired (r : ApiResponse) : Bool :=
  r.code == some 10000 || r.code == some 10001 || r.code == some 401 ||
  r.code == some 16201010 ||
  msgHas r.message "login" || msgHas r.message "auth" || msgHas r.message "session"

/-- Classifier of `fetchAffiliateAnalytics` (part_003 lines 205-214), applied
when `json.code !== 0`: the failure is treated as an expired cookie iff the
message contains `login` or `auth`, or the code is 10000 or 10001. -/
def affiliateAuthExpired (r : ApiResponse) : Bool :=
  msgHas r.message "login" || msgHas r.message "auth" ||
  r.code == some 10000 || r.code == some 10001

/-- The platform's reserved unauthenticated/unauthorized codes named by the
spec (the set checked by `apiRequest`). -/
def reservedAuthCodes : List Int := [10000, 10001, 401, 16201010]

/-- Spec-side predicate: `m` contains `needle` case-insensitively. -/
def containsCI (m needle : String) : Prop :=
  needle.toList <:+: m.toList.map Char.toLower

/-- Modelled from the spec (§4.5): a failed response is classified
`AuthExpired` iff its numeric error code is one of the platform's reserved
unauthenticated/unauthorized codes, or its message contains
(case-insensitively) one of `login`, `auth`, `session`. -/
def specAuthExpired (r : ApiResponse) : Prop :=
  (∃ c, r.code = some c ∧ c ∈ reservedAuthCodes) ∨
  (∃ m, r.message = some m ∧
    (containsCI m "login" ∨ containsCI m "auth" ∨ containsCI m "session"))

instance (m needle : String) : Decidable (containsCI m needle) :=
  inferInstanceAs (Decidable (needle.toList <:+: m.toList.map Char.toLower))

/-- The signal set actually checked by the affiliate-analytics classifier:
codes 10000/10001 and the substrings `login`/`auth` only. -/
def specAffiliateAuthExpired (r : ApiResponse) : Prop :=
  (∃ c, r.code = some c ∧ c ∈ [(10000 : Int), 10001]) ∨
  (∃ m, r.message = some m ∧ (containsCI m "login" ∨ containsCI m "auth"))

/-! ## Alert dispatcher (§4.6, part_003 `createExpiryIssue`, lines 245-301) -/

/-- Outcome of the open-alert search call: the fetch threw (network failure),
the response parsed to an array with the given number of open
`cookie-expired` issues, or the response parsed to a non-array value. -/
inductive SearchOutcome where
  | threw : SearchOutcome
  | respArray : ℕ → SearchOutcome
  | respNonArray : SearchOutcome
deriving DecidableEq, Repr

/-- Does `createExpiryIssue` attempt to create a new issue?  Without
credentials it returns immediately; with a successful search returning one or
more open matching issues it skips; in every other case — including a thrown
search (the `catch` ignores the error) and a non-array response — it
proceeds to create. -/
def dispatcherCreates (hasCreds : Bool) (s : SearchOutcome) : Bool :=
  if !hasCreds then false
  else
    match s with
    | .respArray (_ + 1) => false
    | _ => true

/-- Open-alert count after one dispatcher invocation (the creation call is
taken to succeed; its own failure is swallowed by the code). -/
def alertRun (hasCreds : Bool) (outcome : SearchOutcome) (openAlerts : ℕ) : ℕ :=
  if dispatcherCreates hasCreds outcome then openAlerts + 1 else openAlerts

/-- One dispatcher invocation against a reliable ticketing collaborator,
whose search reports exactly the currently open matching alerts. -/
def alertRunReliable (hasCreds : Bool) (openAlerts : ℕ) : ℕ :=
  alertRun hasCreds (.respArray openAlerts) openAlerts

/-! ## Pagination loops (§4.1) -/

/-- A raw payout object, with the fields consumed by
`formatPayout` (part_003 lines 117-124). -/
structure RawPayout where
  id : String
  payment_time : RawVal
  amount : RawVal
  payment_amount : RawVal
deriving DecidableEq, Repr

/-- One page of `/api/v1/affiliate/partner/payout/search`:
`data.code`, `data.data?.payout_info` (absent vs. present-but-empty are
distinct) and `data.data.total_count`. -/
structure PayoutPage where
  code : Int
  payout_info : Option (List RawPayout)
  total_count : ℕ
deriving DecidableEq, Repr

/-- Pagination loop of part_003 `fetchAllPayouts` (lines 82-111).  The body
breaks when `data.code !== 0` or `payout_info` is absent, otherwise appends
the page and continues `while (allPayouts.length < totalCount && page <= 100)`.
`fuel` encodes the remaining budget of the `page <= 100` bound
(`fuel = 100 - page` on entry); the result also counts the requests made. -/
def fetchAllPayoutsAux (src : ℕ → PayoutPage) :
    ℕ → ℕ → List RawPayout → ℕ → List RawPayout × ℕ
  | fuel, page, acc, reqs =>
    let data := src page
    match data.payout_info, data.code == 0 with
    | some info, true =>
      let acc' := acc ++ info
      match fuel with
      | 0 => (acc', reqs + 1)
      | fuel' + 1 =>
        if acc'.length < data.total_count then
          fetchAllPayoutsAux src fuel' (page + 1) acc' (reqs + 1)
        else (acc', reqs + 1)
    | _, _ => (acc, reqs + 1)

/-- part_003 `fetchAllPayouts`: pages start at 1, so the `page <= 100` bound
leaves 99 further iterations after the first. -/
def fetchAllPayouts (src : ℕ → PayoutPage) : List RawPayout × ℕ :=
  fetchAllPayoutsAux src 99 1 [] 0

/-- Pagination loop of the part_000 bookmarklet (`refreshAgencyData`,
lines 38-50 and 57-69): the same body, but the `do … while` condition is only
`accumulated.length < total` — there is no page ceiling.  The loop is run on
a fuel budget; `none` means the budget was exhausted with the loop still
running. -/
def part000LoopAux (src : ℕ → PayoutPage) :
    ℕ → ℕ → List RawPayout → Option (List RawPayout)
  | 0, _, _ => none
  | fuel + 1, page, acc =>
    let data := src page
    match data.payout_info, data.code == 0 with
    | some info, true =>
      let acc' := acc ++ info
      if acc'.length < data.total_count then part000LoopAux src fuel (page + 1) acc'
      else some acc'
    | _, _ => some acc

/-- The bookmarklet loop from its initial state (`page = 1`, no records). -/
def part000Loop (src : ℕ → PayoutPage) (fuel : ℕ) : Option (List RawPayout) :=
  part000LoopAux src fuel 1 []

/-- A misbehaving paginator: every page answers `code 0` with an empty
`payout_info` array (truthy in JS) while reporting `total_count = 1`. -/
def badSource : ℕ → PayoutPage :=
  fun _ => { code := 0, payout_info := some [], total_count := 1 }

/-! ## Monetary-field normalization (§4.2) -/

/-- A raw statement object as read by `fetchStatements`
(`fetch-tiktok-data.mjs` lines 124-135); only the monetary candidate fields
are listed, the identity/date/type fields are not needed by the claims about
monetary normalization. -/
structure RawStatement where
  settlement_amount : RawVal
  revenue_amount : RawVal
  amount : RawVal
  payout_amount : RawVal
  paid_amount : RawVal
deriving DecidableEq, Repr

/-- `parseFloat(s.settlement_amount || s.revenue_amount || s.amount || 0)`
(`fetch-tiktok-data.mjs` line 130). -/
def statementSettlementAmount (s : RawStatement) : JNum :=
  jsParseFloat (orv s.settlement_amount (orv s.revenue_amount (orv s.amount (.num 0))))

/-- `parseFloat(s.payout_amount || s.paid_amount || s.settlement_amount || s.amount || 0)`
(`fetch-tiktok-data.mjs` line 131). -/
def statementAmountPaid (s : RawStatement) : JNum :=
  jsParseFloat (orv s.payout_amount
    (orv s.paid_amount (orv s.settlement_amount (orv s.amount (.num 0)))))

/-- Monetary fields of part_003 `formatPayout` (lines 117-124):
`parseFloat(raw.amount)` and `parseFloat(raw.payment_amount)` with no
fallback of any kind.  (The record's date field — epoch milliseconds
truncated to an ISO day — is not modelled; no claim depends on its value.) -/
def formatPayoutAmounts (r : RawPayout) : JNum × JNum :=
  (jsParseFloat r.amount, jsParseFloat r.payment_amount)

/-! ## Sample data used by witnesses and counterexamples -/

/-- An empty analytics record (no fields in the stored file). -/
def emptyAnalytics : Analytics := ⟨none, none, none, none, none⟩

/-- A persisted distribution payout. -/
def sampleDist1 : DistPayout :=
  ⟨"D1", "2026-01-05", some 10, some 10, "PRODUCT_DISTRIBUTION", "USD"⟩

/-- A freshly fetched creator payout. -/
def sampleCreator1 : CreatorPayout := ⟨"P1", "2026-01-06", some 5, some 5⟩

/-- A persisted creator payout whose key `P1` collides with incoming data. -/
def sampleCreatorE : CreatorPayout := ⟨"P1", "2026-01-01", some 1, some 1⟩

/-- A persisted creator payout with a key that does not reappear. -/
def sampleCreatorE2 : CreatorPayout := ⟨"P9", "2025-12-01", some 3, some 3⟩

/-- An incoming creator payout carrying key `P1` with fresh field values. -/
def sampleCreatorI : CreatorPayout := ⟨"P1", "2026-01-01", some 2, some 2⟩

/-- Two persisted creator payouts stored in ascending date order. -/
def oldA : CreatorPayout := ⟨"A", "2020-01-01", some 1, some 1⟩

/-- Second element of the ascending stored pair. -/
def oldB : CreatorPayout := ⟨"B", "2021-01-01", some 2, some 2⟩

/-- Persisted state holding one distribution payout and no creator payouts. -/
def sampleState1 : PersistedState :=
  { analytics := emptyAnalytics, payouts := [], distribution_payouts := [sampleDist1] }

/-! ## Order facts for the date comparison -/

theorem charListLe_refl : ∀ l : List Char, charListLe l l = true
  | [] => rfl
  | a :: as => by simp [charListLe, lt_irrefl, charListLe_refl as]

theorem strLe_refl (s : String) : strLe s s = true := charListLe_refl _

theorem charListLe_total : ∀ a b : List Char,
    charListLe a b = true ∨ charListLe b a = true
  | [], _ => Or.inl rfl
  | _ :: _, [] => Or.inr rfl
  | a :: as, b :: bs => by
    rcases lt_trichotomy a b with h | h | h
    · exact Or.inl (by simp [charListLe, h])
    · subst h
      rcases charListLe_total as bs with h' | h'
      · exact Or.inl (by simp [charListLe, lt_irrefl, h'])
      · exact Or.inr (by simp [charListLe, lt_irrefl, h'])
    · exact Or.inr (by simp [charListLe, h])

theorem strLe_total (a b : String) : strLe a b = true ∨ strLe b a = true :=
  charListLe_total _ _

theorem charListLe_trans : ∀ {a b c : List Char},
    charListLe a b = true → charListLe b c = true → charListLe a c = true
  | [], _, _, _, _ => rfl
  | _ :: _, [], _, h1, _ => by simp [charListLe] at h1
  | _ :: _, _ :: _, [], _, h2 => by simp [charListLe] at h2
  | a :: as, b :: bs, c :: cs, h1, h2 => by
    rcases lt_trichotomy a b with hab | hab | hab
    · rcases lt_trichotomy b c with hbc | hbc | hbc
      · simp [charListLe, hab.trans hbc]
      · subst hbc; simp [charListLe, hab]
      · simp [charListLe, hbc, asymm hbc] at h2
    · subst hab
      rcases lt_trichotomy a c with hbc | hbc | hbc
      · simp [charListLe, hbc]
      · subst hbc
        simp only [charListLe, lt_irrefl, if_false] at h1 h2 ⊢
        exact charListLe_trans h1 h2
      · simp [charListLe, hbc, asymm hbc] at h2
    · simp [charListLe, hab, asymm hab] at h1

theorem strLe_trans {a b c : String} :
    strLe a b = true → strLe b c = true → strLe a c = true :=
  charListLe_trans

theorem charListLe_antisymm : ∀ {a b : List Char},
    charListLe a b = true → charListLe b a = true → a = b
  | [], [], _, _ => rfl
  | _ :: _, [], h1, _ => by simp [charListLe] at h1
  | [], _ :: _, _, h2 => by simp [charListLe] at h2
  | a :: as, b :: bs, h1, h2 => by
    rcases lt_trichotomy a b with hab | hab | hab
    · simp [charListLe, hab, asymm hab] at h2
    · subst hab
      simp only [charListLe, lt_irrefl, if_false] at h1 h2
      rw [charListLe_antisymm h1 h2]
    · simp [charListLe, hab, asymm hab] at h1

theorem strLe_antisymm {a b : String} :
    strLe a b = true → strLe b a = true → a = b := by
  intro h1 h2
  have := charListLe_antisymm h1 h2
  rwa [String.toList_inj] at this

theorem strLe_of_not_strLe {a b : String} (h : ¬ strLe a b = true) :
    strLe b a = true := (strLe_total a b).resolve_left h

/-! ## Sorting lemmas: permutation, sortedness, stability -/

section SortLemmas

variable {α : Type} (date : α → String)

theorem dateSortedB_iff {date : α → String} :
    ∀ {l : List α}, dateSortedB date l = true ↔ dateSorted date l
  | [] => by simp [dateSortedB, dateSorted]
  | [x] => by simp [dateSortedB, dateSorted]
  | x :: y :: t => by
    rw [dateSorted, List.chain'_cons]
    simp only [dateSortedB, Bool.and_eq_true]
    exact and_congr Iff.rfl dateSortedB_iff

theorem insertDateDesc_perm (x : α) :
    ∀ l : List α, List.Perm (insertDateDesc date x l) (x :: l)
  | [] => List.Perm.refl _
  | y :: ys => by
    rw [insertDateDesc]
    split
    · exact List.Perm.refl _
    · exact ((insertDateDesc_perm x ys).cons y).trans (List.Perm.swap x y ys)

theorem sortDateDesc_perm : ∀ l : List α, List.Perm (sortDateDesc date l) l
  | [] => List.Perm.refl _
  | x :: xs =>
    (insertDateDesc_perm date x (sortDateDesc date xs)).trans
      ((sortDateDesc_perm xs).cons x)

theorem insertDateDesc_head? (x : α) :
    ∀ l : List α, (insertDateDesc date x l).head? = some x ∨
      (insertDateDesc date x l).head? = l.head?
  | [] => Or.inl rfl
  | y :: ys => by
    rw [insertDateDesc]
    split
    · exact Or.inl rfl
    · exact Or.inr rfl

theorem dateSorted_insertDateDesc (x : α) :
    ∀ {l : List α}, dateSorted date l → dateSorted date (insertDateDesc date x l)
  | [], _ => List.chain'_singleton x
  | y :: ys, h => by
    rw [insertDateDesc]
    split
    · exact List.chain'_cons.mpr ⟨by assumption, h⟩
    · rename_i hle
      have hxy := strLe_of_not_strLe hle
      have hins := dateSorted_insertDateDesc x h.tail
      refine List.chain'_cons'.mpr ⟨?_, hins⟩
      intro b hb
      rcases insertDateDesc_head? date x ys with he | he
      · rw [he] at hb
        cases hb
        exact hxy
      · rw [he] at hb
        exact (List.chain'_cons'.mp h).1 b hb

theorem sortDateDesc_sorted : ∀ l : List α, dateSorted date (sortDateDesc date l)
  | [] => List.chain'_nil
  | x :: xs => dateSorted_insertDateDesc date x (sortDateDesc_sorted xs)

theorem sortDateDesc_of_sorted :
    ∀ {l : List α}, dateSorted date l → sortDateDesc date l = l
  | [], _ => rfl
  | x :: xs, h => by
    have ht : dateSorted date xs := h.tail
    rw [sortDateDesc, sortDateDesc_of_sorted ht]
    cases xs with
    | nil => rfl
    | cons y t =>
      have hxy : strLe (date y) (date x) = true := (List.chain'_cons.mp h).1
      rw [insertDateDesc, if_pos hxy]

theorem filter_insertDateDesc (d : String) (x : α) :
    ∀ l : List α,
      (insertDateDesc date x l).filter (fun a => date a == d) =
        ((x :: l).filter (fun a => date a == d))
  | [] => rfl
  | y :: ys => by
    rw [insertDateDesc]
    split
    · rfl
    · rename_i hle
      by_cases hy : date y == d
      · by_cases hx : date x == d
        · exact absurd (by rw [beq_iff_eq] at hx hy; rw [hy, hx]; exact strLe_refl d) hle
        · simp [List.filter_cons, hx, hy, filter_insertDateDesc d x ys]
      · by_cases hx : date x == d
        · simp [List.filter_cons, hx, hy, filter_insertDateDesc d x ys]
        · simp [List.filter_cons, hx, hy, filter_insertDateDesc d x ys]

theorem filter_sortDateDesc (d : String) :
    ∀ l : List α,
      (sortDateDesc date l).filter (fun a => date a == d) =
        l.filter (fun a => date a == d)
  | [] => rfl
  | x :: xs => by
    rw [sortDateDesc, filter_insertDateDesc, List.filter_cons, List.filter_cons,
      filter_sortDateDesc d xs]

theorem dateSorted_rel_of_mem {x : α} :
    ∀ {xs : List α}, dateSorted date (x :: xs) →
      ∀ z ∈ xs, strLe (date z) (date x) = true
  | [], _, z, hz => absurd hz (List.not_mem_nil z)
  | y :: t, h, z, hz => by
    have h1 : strLe (date y) (date x) = true := (List.chain'_cons.mp h).1
    rcases List.mem_cons.mp hz with rfl | hz'
    · exact h1
    · exact strLe_trans (dateSorted_rel_of_mem (List.chain'_cons.mp h).2 z hz') h1

theorem sorted_eq_of_filter_eq :
    ∀ {l1 l2 : List α}, dateSorted date l1 → dateSorted date l2 →
      (∀ d, l1.filter (fun a => date a == d) = l2.filter (fun a => date a == d)) →
      l1 = l2
  | [], [], _, _, _ => rfl
  | [], y :: ys, _, _, h => by
    have := h (date y)
    simp [List.filter_cons] at this
  | x :: xs, [], _, _, h => by
    have := h (date x)
    simp [List.filter_cons] at this
  | x :: xs, y :: ys, h1, h2, h => by
    have hxy : strLe (date x) (date y) = true := by
      have hmem : x ∈ List.filter (fun a => date a == date x) (y :: ys) := by
        rw [← h (date x)]
        exact List.mem_filter.mpr ⟨List.mem_cons_self _ _, by simp⟩
      rcases List.mem_cons.mp (List.mem_filter.mp hmem).1 with heq | hz
      · rw [heq]; exact strLe_refl _
      · exact dateSorted_rel_of_mem date h2 x hz
    have hyx : strLe (date y) (date x) = true := by
      have hmem : y ∈ List.filter (fun a => date a == date y) (x :: xs) := by
        rw [h (date y)]
        exact List.mem_filter.mpr ⟨List.mem_cons_self _ _, by simp⟩
      rcases List.mem_cons.mp (List.mem_filter.mp hmem).1 with heq | hz
      · rw [heq]; exact strLe_refl _
      · exact dateSorted_rel_of_mem date h1 y hz
    have hd : date x = date y := strLe_antisymm hxy hyx
    have hx := h (date x)
    rw [List.filter_cons, List.filter_cons, if_pos (by simp), if_pos (by simp [hd])] at hx
    injection hx with hhead htail
    have t1 : dateSorted date xs := h1.tail
    have t2 : dateSorted date ys := h2.tail
    have htails : ∀ d, xs.filter (fun a => date a == d) = ys.filter (fun a => date a == d) := by
      intro d
      by_cases hdd : date x = d
      · subst hdd; exact htail
      · have hdy : ¬ (date y = d) := by rw [← hd]; exact hdd
        have hDD := h d
        rw [List.filter_cons, List.filter_cons, if_neg (by simp [hdd]),
          if_neg (by simp [hdy])] at hDD
        exact hDD
    rw [hhead, sorted_eq_of_filter_eq t1 t2 htails]

theorem sortDateDesc_eq_of_filter_eq {l1 l2 : List α}
    (h : ∀ d, l1.filter (fun a => date a == d) = l2.filter (fun a => date a == d)) :
    sortDateDesc date l1 = sortDateDesc date l2 :=
  sorted_eq_of_filter_eq date (sortDateDesc_sorted date l1) (sortDateDesc_sorted date l2)
    (fun d => by rw [filter_sortDateDesc, filter_sortDateDesc]; exact h d)

end SortLemmas

/-! ## Dedup lemmas -/

section DedupLemmas

variable {α : Type} (key : α → String)

theorem dedupKeysAux_congr : ∀ {l : List α} {s1 s2 : List String},
    (∀ k, k ∈ s1 ↔ k ∈ s2) → dedupKeysAux key s1 l = dedupKeysAux key s2 l
  | [], _, _, _ => rfl
  | x :: xs, s1, s2, hs => by
    rw [dedupKeysAux, dedupKeysAux]
    by_cases h1 : key x ∈ s1
    · rw [if_pos h1, if_pos ((hs _).mp h1)]
      exact dedupKeysAux_congr hs
    · rw [if_neg h1, if_neg (fun h2 => h1 ((hs _).mpr h2))]
      exact congrArg (x :: ·)
        (dedupKeysAux_congr (fun k => by simp [List.mem_cons, hs k]))

theorem dedupKeysAux_append : ∀ {a b : List α} {s : List String},
    dedupKeysAux key s (a ++ b) =
      dedupKeysAux key s a ++ dedupKeysAux key (a.map key ++ s) b
  | [], b, s => by simp [dedupKeysAux]
  | x :: a', b, s => by
    rw [List.cons_append, dedupKeysAux, dedupKeysAux]
    by_cases h1 : key x ∈ s
    · rw [if_pos h1, if_pos h1, dedupKeysAux_append]
      congr 1
      refine dedupKeysAux_congr key (fun k => ?_)
      simp only [List.mem_append, List.map_cons, List.mem_cons]
      constructor
      · intro h
        rcases h with h | h
        · exact Or.inl (Or.inr h)
        · exact Or.inr h
      · intro h
        rcases h with (h | h) | h
        · subst h; exact Or.inr h1
        · exact Or.inl h
        · exact Or.inr h
    · rw [if_neg h1, if_neg h1, dedupKeysAux_append, List.cons_append]
      congr 2
      refine dedupKeysAux_congr key (fun k => ?_)
      simp only [List.mem_append, List.map_cons, List.mem_cons]
      tauto

theorem key_not_seen_of_mem_dedupKeysAux : ∀ {l : List α} {s : List String},
    ∀ x ∈ dedupKeysAux key s l, key x ∉ s
  | [], _, x, hx => absurd hx (List.not_mem_nil x)
  | y :: ys, s, x, hx => by
    rw [dedupKeysAux] at hx
    by_cases h1 : key y ∈ s
    · rw [if_pos h1] at hx
      exact key_not_seen_of_mem_dedupKeysAux x hx
    · rw [if_neg h1] at hx
      rcases List.mem_cons.mp hx with rfl | hx'
      · exact h1
      · have := key_not_seen_of_mem_dedupKeysAux x hx'
        intro hmem
        exact this (List.mem_cons_of_mem _ hmem)

theorem keys_nodup_dedupKeysAux : ∀ {l : List α} {s : List String},
    ((dedupKeysAux key s l).map key).Nodup
  | [], _ => List.nodup_nil
  | y :: ys, s => by
    rw [dedupKeysAux]
    by_cases h1 : key y ∈ s
    · rw [if_pos h1]
      exact keys_nodup_dedupKeysAux
    · rw [if_neg h1, List.map_cons, List.nodup_cons]
      refine ⟨?_, keys_nodup_dedupKeysAux⟩
      intro hmem
      rcases List.mem_map.mp hmem with ⟨z, hz, hzk⟩
      exact key_not_seen_of_mem_dedupKeysAux key z hz (hzk ▸ List.mem_cons_self _ _)

theorem mem_of_mem_dedupKeysAux : ∀ {l : List α} {s : List String} {x : α},
    x ∈ dedupKeysAux key s l → x ∈ l
  | [], _, x, hx => absurd hx (List.not_mem_nil x)
  | y :: ys, s, x, hx => by
    rw [dedupKeysAux] at hx
    by_cases h1 : key y ∈ s
    · rw [if_pos h1] at hx
      exact List.mem_cons_of_mem _ (mem_of_mem_dedupKeysAux hx)
    · rw [if_neg h1] at hx
      rcases List.mem_cons.mp hx with rfl | hx'
      · exact List.mem_cons_self _ _
      · exact List.mem_cons_of_mem _ (mem_of_mem_dedupKeysAux hx')

theorem key_mem_dedupKeysAux : ∀ {l : List α} {s : List String} {k : String},
    k ∈ l.map key → k ∉ s → k ∈ (dedupKeysAux key s l).map key
  | [], _, k, hk, _ => absurd hk (by simp)
  | y :: ys, s, k, hk, hns => by
    rw [dedupKeysAux]
    by_cases h1 : key y ∈ s
    · rw [if_pos h1]
      rcases List.mem_cons.mp (List.map_cons key y ys ▸ hk) with rfl | hk'
      · exact absurd h1 hns
      · exact key_mem_dedupKeysAux hk' hns
    · rw [if_neg h1, List.map_cons]
      by_cases hky : k = key y
      · exact hky ▸ List.mem_cons_self _ _
      · rcases List.mem_cons.mp (List.map_cons key y ys ▸ hk) with rfl | hk'
        · exact absurd rfl hky
        · refine List.mem_cons_of_mem _ (key_mem_dedupKeysAux hk' ?_)
          intro hmem
          rcases List.mem_cons.mp hmem with h | h
          · exact hky h
          · exact hns h

theorem dedupKeysAux_eq_filter : ∀ {l : List α} {s : List String},
    (l.map key).Nodup →
      dedupKeysAux key s l = l.filter (fun x => decide (key x ∉ s))
  | [], _, _ => rfl
  | y :: ys, s, hnd => by
    rw [List.map_cons, List.nodup_cons] at hnd
    rw [dedupKeysAux, List.filter_cons]
    by_cases h1 : key y ∈ s
    · rw [if_pos h1, if_neg (by simp [h1]), dedupKeysAux_eq_filter hnd.2]
    · rw [if_neg h1, if_pos (by simp [h1]), dedupKeysAux_eq_filter hnd.2]
      congr 1
      refine List.filter_congr ?_
      intro z hz
      have hzk : key z ≠ key y := by
        intro he
        exact hnd.1 (he ▸ List.mem_map_of_mem key hz)
      simp [List.mem_cons, hzk]

end DedupLemmas

/-! ## Merge lemmas -/

section MergeLemmas

variable {α : Type} (key date : α → String)

theorem filter_comm' (p q : α → Bool) :
    ∀ l : List α, (l.filter q).filter p = (l.filter p).filter q
  | [] => rfl
  | x :: t => by
    by_cases hp : p x
    · by_cases hq : q x
      · simp [List.filter_cons, hp, hq, filter_comm' p q t]
      · simp [List.filter_cons, hp, hq, filter_comm' p q t]
    · by_cases hq : q x
      · simp [List.filter_cons, hp, hq, filter_comm' p q t]
      · simp [List.filter_cons, hp, hq, filter_comm' p q t]

theorem mergeRecords_mem_iff {E I : List α} {x : α} :
    x ∈ mergeRecords key date E I ↔ x ∈ dedupKeys key (I ++ E) :=
  (sortDateDesc_perm date _).mem_iff

theorem dedupKeys_append (I E : List α) :
    dedupKeys key (I ++ E) = dedupKeys key I ++ dedupKeysAux key (I.map key) E := by
  rw [dedupKeys, dedupKeysAux_append, dedupKeys]
  congr 1
  exact dedupKeysAux_congr key (fun k => by simp)

theorem incoming_wins {E I : List α} :
    ∀ r ∈ mergeRecords key date E I, key r ∈ I.map key → r ∈ I := by
  intro r hr hk
  rw [mergeRecords_mem_iff, dedupKeys_append, List.mem_append] at hr
  rcases hr with hr | hr
  · exact mem_of_mem_dedupKeysAux key hr
  · exact absurd hk (key_not_seen_of_mem_dedupKeysAux key r hr)

theorem collision_won {E I : List α} {k : String} (hk : k ∈ I.map key) :
    ∃ r, r ∈ mergeRecords key date E I ∧ key r = k ∧ r ∈ I := by
  have hk' : k ∈ (I ++ E).map key := by
    rw [List.map_append]
    exact List.mem_append.mpr (Or.inl hk)
  have h2 : k ∈ (dedupKeys key (I ++ E)).map key :=
    key_mem_dedupKeysAux key hk' (List.not_mem_nil k)
  rcases List.mem_map.mp h2 with ⟨r, hr, hrk⟩
  have hrm : r ∈ mergeRecords key date E I := (mergeRecords_mem_iff key date).mpr hr
  exact ⟨r, hrm, hrk, incoming_wins key date r hrm (hrk ▸ hk)⟩

theorem retention {E I : List α} (hnd : (E.map key).Nodup) :
    ∀ r ∈ E, key r ∉ I.map key → r ∈ mergeRecords key date E I := by
  intro r hr hk
  rw [mergeRecords_mem_iff, dedupKeys_append, List.mem_append]
  right
  rw [dedupKeysAux_eq_filter key hnd]
  exact List.mem_filter.mpr ⟨hr, by simp [hk]⟩

theorem mergeRecords_idem (E I : List α) :
    mergeRecords key date (mergeRecords key date E I) I = mergeRecords key date E I := by
  have hMnodup : ((mergeRecords key date E I).map key).Nodup :=
    (List.Perm.map key (sortDateDesc_perm date (dedupKeys key (I ++ E)))).nodup_iff.mpr
      (keys_nodup_dedupKeysAux key)
  have hfilters : ∀ d,
      (dedupKeys key (I ++ mergeRecords key date E I)).filter (fun a => date a == d) =
        (dedupKeys key (I ++ E)).filter (fun a => date a == d) := by
    intro d
    rw [dedupKeys_append key I (mergeRecords key date E I), dedupKeys_append key I E,
      dedupKeysAux_eq_filter key hMnodup, List.filter_append, List.filter_append]
    congr 1
    rw [filter_comm']
    simp only [mergeRecords]
    rw [filter_sortDateDesc, dedupKeys_append key I E, List.filter_append,
      List.filter_append]
    have hA : (((dedupKeys key I).filter (fun a => date a == d)).filter
        (fun x => decide (key x ∉ I.map key))) = [] := by
      rw [List.filter_eq_nil_iff]
      intro a ha
      have ha' : a ∈ dedupKeys key I := (List.mem_filter.mp ha).1
      have hka : key a ∈ I.map key :=
        List.mem_map_of_mem key (mem_of_mem_dedupKeysAux key ha')
      simp [hka]
    have hB : (((dedupKeysAux key (I.map key) E).filter (fun a => date a == d)).filter
        (fun x => decide (key x ∉ I.map key))) =
          (dedupKeysAux key (I.map key) E).filter (fun a => date a == d) := by
      rw [List.filter_eq_self]
      intro a ha
      have ha' : a ∈ dedupKeysAux key (I.map key) E := (List.mem_filter.mp ha).1
      have := key_not_seen_of_mem_dedupKeysAux key a ha'
      simp [this]
    rw [hA, hB, List.nil_append]
  calc mergeRecords key date (mergeRecords key date E I) I
      = sortDateDesc date (dedupKeys key (I ++ mergeRecords key date E I)) := rfl
    _ = sortDateDesc date (dedupKeys key (I ++ E)) :=
        sortDateDesc_eq_of_filter_eq date hfilters
    _ = mergeRecords key date E I := rfl

end MergeLemmas

/-! ## Substring and classifier lemmas -/

theorem startsWithChars_iff : ∀ {hay needle : List Char},
    startsWithChars hay needle = true ↔ ∃ t, needle ++ t = hay
  | hay, [] => by simp [startsWithChars]
  | [], n :: ns => by
    constructor
    · intro h
      exact absurd h (by simp [startsWithChars])
    · rintro ⟨t, ht⟩
      exact absurd ht (by simp)
  | h :: hs, n :: ns => by
    rw [startsWithChars, Bool.and_eq_true, beq_iff_eq]
    constructor
    · rintro ⟨rfl, hr⟩
      rcases startsWithChars_iff.mp hr with ⟨t, rfl⟩
      exact ⟨t, rfl⟩
    · rintro ⟨t, ht⟩
      injection ht with h1 h2
      subst h1
      exact ⟨rfl, startsWithChars_iff.mpr ⟨t, h2⟩⟩

theorem containsSub_iff : ∀ {hay needle : List Char},
    containsSub hay needle = true ↔ needle <:+: hay
  | [], needle => by
    constructor
    · intro h
      cases needle with
      | nil => exact ⟨[], [], rfl⟩
      | cons n ns => exact absurd h (by simp [containsSub])
    · rintro ⟨s, t, hst⟩
      cases needle with
      | nil => simp [containsSub]
      | cons n ns =>
        exfalso
        have hlen : (s ++ (n :: ns) ++ t).length = 0 := by rw [hst]; rfl
        simp at hlen
  | h :: hs, needle => by
    rw [containsSub, Bool.or_eq_true]
    constructor
    · intro hor
      rcases hor with hp | hc
      · rcases startsWithChars_iff.mp hp with ⟨t, ht⟩
        exact ⟨[], t, by simpa using ht⟩
      · rcases containsSub_iff.mp hc with ⟨s, t, hst⟩
        exact ⟨h :: s, t, by rw [← hst]; rfl⟩
    · rintro ⟨s, t, hst⟩
      cases s with
      | nil =>
        left
        exact startsWithChars_iff.mpr ⟨t, by simpa using hst⟩
      | cons a s' =>
        right
        refine containsSub_iff.mpr ⟨s', t, ?_⟩
        have h' : a = h ∧ s' ++ needle ++ t = hs := by simpa using hst
        exact h'.2

theorem msgHas_iff {m : Option String} {needle : String} :
    msgHas m needle = true ↔ ∃ s, m = some s ∧ containsCI s needle := by
  cases m with
  | none => simp [msgHas]
  | some s =>
    rw [msgHas, containsSub_iff]
    constructor
    · intro h
      exact ⟨s, rfl, h⟩
    · rintro ⟨s', hs', hci⟩
      injection hs' with he
      exact he ▸ hci

/-! ## Pagination lemmas -/

theorem fetchAllPayoutsAux_reqs (src : ℕ → PayoutPage) (fuel : ℕ) :
    ∀ (page : ℕ) (acc : List RawPayout) (reqs : ℕ),
      (fetchAllPayoutsAux src fuel page acc reqs).2 ≤ reqs + fuel + 1 := by
  induction fuel with
  | zero =>
    intro page acc reqs
    rw [fetchAllPayoutsAux]
    split
    · simp
    · simp
  | succ fuel' ih =>
    intro page acc reqs
    rw [fetchAllPayoutsAux]
    split
    · show (if _ then (fetchAllPayoutsAux src fuel' (page + 1) _ (reqs + 1)) else _).2 ≤ _
      split
      · exact le_trans (ih (page + 1) _ (reqs + 1)) (by omega)
      · show reqs + 1 ≤ reqs + (fuel' + 1) + 1
        omega
    · show reqs + 1 ≤ reqs + (fuel' + 1) + 1
      omega

theorem part000LoopAux_badSource :
    ∀ (fuel page : ℕ), part000LoopAux badSource fuel page [] = none
  | 0, _ => rfl
  | fuel + 1, page => by
    rw [part000LoopAux]
    simpa [badSource] using part000LoopAux_badSource fuel (page + 1)

theorem partnerAuthExpired_iff (r : ApiResponse) :
    partnerAuthExpired r = true ↔ specAuthExpired r := by
  rcases r with ⟨code, message⟩
  simp only [partnerAuthExpired, specAuthExpired, reservedAuthCodes, Bool.or_eq_true,
    beq_iff_eq, msgHas_iff, List.mem_cons, List.not_mem_nil, or_false]
  aesop

theorem affiliateAuthExpired_iff (r : ApiResponse) :
    affiliateAuthExpired r = true ↔ specAffiliateAuthExpired r := by
  rcases r with ⟨code, message⟩
  simp only [affiliateAuthExpired, specAffiliateAuthExpired, Bool.or_eq_true,
    beq_iff_eq, msgHas_iff, List.mem_cons, List.not_mem_nil, or_false]
  aesop

theorem part3Run_ok_eq (existing : PersistedState) (d : List DistPayout)
    (c : List CreatorPayout) (m : Option Metrics) (t : String)
    (hg : part3Guard existing (sortDateDesc dDate d) (sortDateDesc cDate c) = false) :
    part3Run existing (.ok (d, c)) m t = some
      { analytics := updateAnalytics existing.analytics m t
        payouts := sortDateDesc cDate c
        distribution_payouts := sortDateDesc dDate d } := by
  rw [part3Run]
  rw [if_neg (by simp [hg])]

/-! ## Claim theorems -/

/-- C1 counterexample: in the internal-API variant (part_003), a run whose
distribution fetch came back empty without confirmation while the creator
fetch returned a record passes the guard and commits an empty distribution
collection over non-empty persisted data; and in `fetch-tiktok-data.mjs` a
source-confirmed empty settlement list (`some []`) is NOT committed — the
existing collection is retained — so neither half of the claim holds as
stated. -/
theorem c1_counterexample :
    part3Run sampleState1 (Except.ok ([], [sampleCreator1])) none "2026-10-12" =
      some { analytics := { emptyAnalytics with last_updated := some "2026-10-12" }
             payouts := [sampleCreator1]
             distribution_payouts := [] } ∧
    sampleState1.distribution_payouts = [sampleDist1] ∧
    mjsCreatorCommit [sampleCreator1] (some []) = [sampleCreator1] := by
  refine ⟨?_, rfl, rfl⟩
  rfl

/-- C1 amended: in `fetch-tiktok-data.mjs` the creator-payout commit retains
the existing collection unchanged whenever the fetch produced no records
(`null` or an empty list — there is no ConfirmedEmpty path that commits
emptiness); in part_003 the guard is cross-category: a written state with
both collections empty is possible only when the persisted state was already
empty in both categories. -/
theorem c1_theorem :
    (∀ (E : List CreatorPayout) (f : Option (List CreatorPayout)),
        f = none ∨ f = some [] → mjsCreatorCommit E f = E) ∧
    (∀ (existing : PersistedState)
        (f : Except FetchErr (List DistPayout × List CreatorPayout))
        (m : Option Metrics) (t : String) (st : PersistedState),
        part3Run existing f m t = some st →
        st.payouts = [] → st.distribution_payouts = [] →
        existing.payouts = [] ∧ existing.distribution_payouts = []) := by
  constructor
  · rintro E f (rfl | rfl)
    · rfl
    · rfl
  · intro existing f m t st hrun hp hd
    cases f with
    | error e => simp [part3Run] at hrun
    | ok dc =>
      rcases dc with ⟨d, c⟩
      rw [part3Run] at hrun
      by_cases hg : part3Guard existing (sortDateDesc dDate d) (sortDateDesc cDate c) = true
      · rw [if_pos hg] at hrun
        exact absurd hrun (by simp)
      · rw [if_neg hg] at hrun
        have hrec := Option.some.inj hrun
        have hp' : sortDateDesc cDate c = [] := by rw [← hrec] at hp; exact hp
        have hd' : sortDateDesc dDate d = [] := by rw [← hrec] at hd; exact hd
        rw [part3Guard, hp', hd'] at hg
        simp only [List.length_nil, beq_self_eq_true, Bool.true_and, Bool.and_eq_true,
          Bool.or_eq_true, decide_eq_true_eq, not_or] at hg
        push_neg at hg
        constructor
        · rw [← List.length_eq_zero]
          omega
        · rw [← List.length_eq_zero]
          omega

/-- C1 witness: instantiates the amended guard statement — a `null` creator
fetch leaves a non-empty existing collection untouched. -/
theorem c1_witness :
    mjsCreatorCommit [sampleCreatorE] none = [sampleCreatorE] :=
  c1_theorem.1 [sampleCreatorE] none (Or.inl rfl)

/-- C2: in the §4.3 merge, for any identity key occurring in the incoming
batch, every merged record carrying that key is an incoming record (incoming
wins on collision) and one such record is present; and any persisted record
whose key does not reappear in the incoming batch is retained — for both the
creator-payout and the distribution-payout merges. -/
theorem c2_theorem :
    ((∀ (E I : List CreatorPayout) (k : String), k ∈ I.map creatorKey →
        (∀ r ∈ mergeCreator E I, creatorKey r = k → r ∈ I) ∧
        ∃ r, r ∈ mergeCreator E I ∧ creatorKey r = k ∧ r ∈ I) ∧
      (∀ (E I : List CreatorPayout), (E.map creatorKey).Nodup →
        ∀ r ∈ E, creatorKey r ∉ I.map creatorKey → r ∈ mergeCreator E I)) ∧
    ((∀ (E I : List DistPayout) (k : String), k ∈ I.map distKey →
        (∀ r ∈ mergeDist E I, distKey r = k → r ∈ I) ∧
        ∃ r, r ∈ mergeDist E I ∧ distKey r = k ∧ r ∈ I) ∧
      (∀ (E I : List DistPayout), (E.map distKey).Nodup →
        ∀ r ∈ E, distKey r ∉ I.map distKey → r ∈ mergeDist E I)) := by
  refine ⟨⟨?_, ?_⟩, ⟨?_, ?_⟩⟩
  · intro E I k hk
    exact ⟨fun r hr hrk => incoming_wins creatorKey cDate r hr (hrk ▸ hk),
      collision_won creatorKey cDate hk⟩
  · intro E I hnd r hr hk
    exact retention creatorKey cDate hnd r hr hk
  · intro E I k hk
    exact ⟨fun r hr hrk => incoming_wins distKey dDate r hr (hrk ▸ hk),
      collision_won distKey dDate hk⟩
  · intro E I hnd r hr hk
    exact retention distKey dDate hnd r hr hk

/-- C2 witness: with persisted records `P1` (old values) and `P9` and an
incoming `P1` carrying fresh values, the merged `P1` record is the incoming
one and `P9` is retained. -/
theorem c2_witness :
    (∀ r ∈ mergeCreator [sampleCreatorE, sampleCreatorE2] [sampleCreatorI],
        creatorKey r = "P1" → r ∈ [sampleCreatorI]) ∧
    sampleCreatorE2 ∈ mergeCreator [sampleCreatorE, sampleCreatorE2] [sampleCreatorI] := by
  constructor
  · exact ((c2_theorem.1.1 [sampleCreatorE, sampleCreatorE2] [sampleCreatorI] "P1")
      (by decide)).1
  · exact c2_theorem.1.2 [sampleCreatorE, sampleCreatorE2] [sampleCreatorI]
      (by decide) sampleCreatorE2 (by decide) (by decide)

/-- C3: the §4.3 merge is idempotent, including record order:
`merge(merge(E, I), I) = merge(E, I)` for both record categories. -/
theorem c3_theorem :
    (∀ E I : List CreatorPayout, mergeCreator (mergeCreator E I) I = mergeCreator E I) ∧
    (∀ E I : List DistPayout, mergeDist (mergeDist E I) I = mergeDist E I) :=
  ⟨fun E I => mergeRecords_idem creatorKey cDate E I,
   fun E I => mergeRecords_idem distKey dDate E I⟩

theorem distCommitBranch_sorted (l : List DistPayout) :
    dateSorted dDate
      (if 0 < l.length then sortDateDesc dDate (dedupKeys distKey l) else l) := by
  cases l with
  | nil =>
    rw [if_neg (by simp)]
    exact List.chain'_nil
  | cons x t =>
    rw [if_pos (by simp)]
    exact sortDateDesc_sorted dDate _

/-- C4 counterexample: the creator-payout no-fetch path of
`fetch-tiktok-data.mjs` commits the existing collection in its stored order —
here ascending by date — so the committed collection is not sorted by date
descending. -/
theorem c4_counterexample :
    mjsCreatorCommit [oldA, oldB] none = [oldA, oldB] ∧
    ¬ dateSorted cDate [oldA, oldB] := by
  refine ⟨rfl, ?_⟩
  rw [dateSorted]
  simp only [List.chain'_cons, List.chain'_singleton, and_true]
  decide

/-- C4 amended: the committed collection is sorted by date descending for
every path that runs the sort — the `fetch-tiktok-data.mjs` creator commit
when new settlements arrived, the `fetch-tiktok-data.mjs` distribution commit
always, and every collection written by a part_003 run — but not for the
creator no-fetch path, which keeps the stored order. -/
theorem c4_theorem :
    (∀ (E l : List CreatorPayout), 0 < l.length →
        dateSorted cDate (mjsCreatorCommit E (some l))) ∧
    (∀ (E : List DistPayout) (s : Option (List DistPayout))
        (p : Option (List PaymentRec)), dateSorted dDate (mjsDistCommit E s p)) ∧
    (∀ (existing : PersistedState)
        (f : Except FetchErr (List DistPayout × List CreatorPayout))
        (m : Option Metrics) (t : String) (st : PersistedState),
        part3Run existing f m t = some st →
        dateSorted cDate st.payouts ∧ dateSorted dDate st.distribution_payouts) := by
  refine ⟨?_, ?_, ?_⟩
  · intro E l hl
    rw [mjsCreatorCommit, if_pos hl]
    exact sortDateDesc_sorted cDate _
  · intro E s p
    exact distCommitBranch_sorted _
  · intro existing f m t st hrun
    cases f with
    | error e => simp [part3Run] at hrun
    | ok dc =>
      rcases dc with ⟨d, c⟩
      rw [part3Run] at hrun
      by_cases hg : part3Guard existing (sortDateDesc dDate d) (sortDateDesc cDate c) = true
      · rw [if_pos hg] at hrun
        exact absurd hrun (by simp)
      · rw [if_neg hg] at hrun
        rw [← Option.some.inj hrun]
        exact ⟨sortDateDesc_sorted cDate c, sortDateDesc_sorted dDate d⟩

/-- C4 witness: the amended sortedness at concrete inputs — a creator merge
with one incoming record, a no-new-data distribution commit, and a concrete
part_003 write. -/
theorem c4_witness :
    dateSorted cDate (mjsCreatorCommit [oldA, oldB] (some [sampleCreator1])) ∧
    dateSorted dDate (mjsDistCommit [sampleDist1] none none) ∧
    dateSorted cDate [sampleCreator1] := by
  refine ⟨c4_theorem.1 [oldA, oldB] [sampleCreator1] (by decide),
    c4_theorem.2.1 [sampleDist1] none none, ?_⟩
  have h := c4_theorem.2.2 sampleState1 (Except.ok ([], [sampleCreator1])) none "2026-10-12"
    { analytics := { emptyAnalytics with last_updated := some "2026-10-12" }
      payouts := [sampleCreator1]
      distribution_payouts := [] } (by rfl)
  exact h.1

/-- C5 counterexample: a part_003 run that terminates in an authentication
failure keeps the file unchanged and exits — zero writes, not exactly one. -/
theorem c5_counterexample :
    part3Run sampleState1
      (Except.error (FetchErr.authExpired
        "AUTH_EXPIRED: Session cookie expired (code 16201010)"))
      none "2026-10-12" = none := rfl

/-- C5 amended: part_003 writes the state file at most once per run — exactly
when the fetch phase returned without throwing and the non-regression guard
did not fire; runs that threw (including authentication failures) or tripped
the guard write zero times. -/
theorem c5_theorem :
    ∀ (existing : PersistedState)
      (f : Except FetchErr (List DistPayout × List CreatorPayout))
      (m : Option Metrics) (t : String),
      (part3Run existing f m t).isSome = true ↔
        ∃ d c, f = Except.ok (d, c) ∧
          part3Guard existing (sortDateDesc dDate d) (sortDateDesc cDate c) = false := by
  intro existing f m t
  cases f with
  | error e => simp [part3Run]
  | ok dc =>
    rcases dc with ⟨d, c⟩
    rw [part3Run]
    by_cases hg : part3Guard existing (sortDateDesc dDate d) (sortDateDesc cDate c) = true
    · rw [if_pos hg]
      simp [hg]
    · rw [if_neg hg]
      simp only [Option.isSome_some, true_iff]
      exact ⟨d, c, rfl, by simpa using hg⟩

/-- C6 counterexample: the failed affiliate-analytics response with code 999
and message "session expired" carries the spec's `session` signal, yet the
affiliate classifier does not classify it as auth-expired (it checks only
`login`/`auth` and codes 10000/10001), so the claimed if-and-only-if fails
for that failed response. -/
theorem c6_counterexample :
    affiliateAuthExpired { code := some 999, message := some "session expired" } = false ∧
    specAuthExpired { code := some 999, message := some "session expired" } ∧
    (999 : Int) ≠ 0 := by
  refine ⟨by decide, Or.inr ⟨"session expired", rfl, Or.inr (Or.inr (by decide))⟩, by decide⟩

/-- C6 amended: the Partner-Center `apiRequest` classifier matches the claim
exactly (codes 10000/10001/401/16201010 or case-insensitive substrings
`login`/`auth`/`session`); the affiliate-analytics classifier checks the
smaller signal set codes 10000/10001 or substrings `login`/`auth` only. -/
theorem c6_theorem :
    (∀ r : ApiResponse, partnerAuthExpired r = true ↔ specAuthExpired r) ∧
    (∀ r : ApiResponse, affiliateAuthExpired r = true ↔ specAffiliateAuthExpired r) :=
  ⟨partnerAuthExpired_iff, affiliateAuthExpired_iff⟩

/-- C7 counterexample: when the open-alert search call itself throws in two
consecutive runs, the dispatcher creates an alert both times (the `catch`
ignores the failure and proceeds to create), leaving two open alerts — the
at-most-one-open invariant fails as stated. -/
theorem c7_counterexample :
    alertRun true SearchOutcome.threw (alertRun true SearchOutcome.threw 0) = 2 := rfl

/-- C7 amended: whenever the search call succeeds and reports the truly open
matching alerts, the dispatcher never creates while one is open, a second
identical run is a no-op, and a run from a clean state opens exactly one
alert; the invariant can only break when the search call itself fails. -/
theorem c7_theorem :
    (∀ n : ℕ, dispatcherCreates true (SearchOutcome.respArray (n + 1)) = false) ∧
    (∀ s : ℕ, alertRunReliable true (alertRunReliable true s) = alertRunReliable true s) ∧
    alertRunReliable true 0 = 1 := by
  refine ⟨fun n => rfl, ?_, rfl⟩
  intro s
  cases s with
  | zero => rfl
  | succ n => rfl

set_option maxRecDepth 4000 in
/-- C8 counterexample: the bookmarklet pagination loop (part_000) is still
running after 200 pages against a source that keeps reporting
`total_count = 1` while returning empty (but truthy) `payout_info` arrays —
there is no hard page-count ceiling on that loop. -/
theorem c8_counterexample : part000Loop badSource 200 = none := rfl

/-- C8 amended: the part_003 pagination loop is bounded by its hard
`page <= 100` ceiling — at most 100 requests on every source — while the
part_000 bookmarklet loop has no ceiling and never terminates on the
misbehaving paginator. -/
theorem c8_theorem :
    (∀ src : ℕ → PayoutPage, (fetchAllPayouts src).2 ≤ 100) ∧
    (∀ fuel : ℕ, part000Loop badSource fuel = none) := by
  constructor
  · intro src
    have h := fetchAllPayoutsAux_reqs src 99 1 [] 0
    simpa using h
  · intro fuel
    exact part000LoopAux_badSource fuel 1

/-- C9 counterexample: a present but unparseable monetary string (`"N/A"`,
truthy, so the `|| 0` fallback does not apply) normalizes to NaN in the
`fetch-tiktok-data.mjs` statements normalizer, and part_003's `formatPayout`
produces NaN for an absent amount — NaN is propagated, not coerced to 0. -/
theorem c9_counterexample :
    statementSettlementAmount
      { settlement_amount := .str "N/A", revenue_amount := .undef, amount := .undef,
        payout_amount := .undef, paid_amount := .undef } = none ∧
    (RawVal.str "N/A").truthy = true ∧
    (formatPayoutAmounts
      { id := "X", payment_time := .num 0, amount := .undef,
        payment_amount := .undef }).1 = none := by
  refine ⟨by decide, rfl, rfl⟩

/-- C9 amended: the `||`-fallback chain of the statements normalizer coerces
only absent or falsy raw monetary values to 0; a truthy numeric raw value is
taken as is; and part_003's `formatPayout` has no fallback at all, so an
absent raw amount becomes NaN. -/
theorem c9_theorem :
    (∀ s : RawStatement, s.settlement_amount.truthy = false →
        s.revenue_amount.truthy = false → s.amount.truthy = false →
        statementSettlementAmount s = some 0) ∧
    (∀ (s : RawStatement) (q : ℚ), s.settlement_amount = .num q → q ≠ 0 →
        statementSettlementAmount s = some q) ∧
    (∀ r : RawPayout, r.amount = .undef → (formatPayoutAmounts r).1 = none) := by
  refine ⟨?_, ?_, ?_⟩
  · intro s h1 h2 h3
    rw [statementSettlementAmount, orv, if_neg (by simp [h1]), orv, if_neg (by simp [h2]),
      orv, if_neg (by simp [h3])]
    rfl
  · intro s q hq hq0
    rw [statementSettlementAmount, hq, orv,
      if_pos (by simp [RawVal.truthy, hq0])]
    rfl
  · intro r hr
    show jsParseFloat r.amount = none
    rw [hr]
    rfl

/-- C9 witness: the amended fallback behavior at concrete raw records — an
all-falsy chain yields 0, a numeric settlement amount is preserved, and an
absent part_003 amount yields NaN. -/
theorem c9_witness :
    statementSettlementAmount
      { settlement_amount := .undef, revenue_amount := .str "", amount := .num 0,
        payout_amount := .undef, paid_amount := .undef } = some 0 ∧
    statementSettlementAmount
      { settlement_amount := .num 7, revenue_amount := .undef, amount := .undef,
        payout_amount := .undef, paid_amount := .undef } = some 7 ∧
    (formatPayoutAmounts
      { id := "X", payment_time := .num 0, amount := .undef,
        payment_amount := .num 1 }).1 = none := by
  refine ⟨c9_theorem.1 _ (by decide) (by decide) (by decide),
    c9_theorem.2.1 _ 7 rfl (by decide), c9_theorem.2.2 _ rfl⟩

/-- C10: in both variants the committed analytics record's `last_updated` is
set to the run date on every run that reaches the write, and when the
analytics fetch produced no data the metric fields keep their previously
persisted values — so an advancing `last_updated` does not imply the metrics
were refreshed. -/
theorem c10_theorem :
    (∀ (e : Analytics) (f : Option Metrics) (t : String),
        (updateAnalytics e f t).last_updated = some t) ∧
    (∀ (e : Analytics) (t : String),
        updateAnalytics e none t = { e with last_updated := some t }) ∧
    (∀ (existing : PersistedState) (settlements : Option (List CreatorPayout))
        (v2s : Option (List DistPayout)) (v2p : Option (List PaymentRec))
        (a : Option Metrics) (t : String),
        (mjsRun existing settlements v2s v2p a t).analytics =
          updateAnalytics existing.analytics a t) ∧
    (∀ (existing : PersistedState)
        (f : Except FetchErr (List DistPayout × List CreatorPayout))
        (m : Option Metrics) (t : String) (st : PersistedState),
        part3Run existing f m t = some st →
        st.analytics = updateAnalytics existing.analytics m t) := by
  refine ⟨?_, ?_, ?_, ?_⟩
  · intro e f t
    cases f <;> rfl
  · intro e t
    rfl
  · intro existing s v2s v2p a t
    rfl
  · intro existing f m t st hrun
    cases f with
    | error e => simp [part3Run] at hrun
    | ok dc =>
      rcases dc with ⟨d, c⟩
      rw [part3Run] at hrun
      by_cases hg : part3Guard existing (sortDateDesc dDate d) (sortDateDesc cDate c) = true
      · rw [if_pos hg] at hrun
        exact absurd hrun (by simp)
      · rw [if_neg hg] at hrun
        rw [← Option.some.inj hrun]

/-- C10 witness: a run with no analytics data still advances `last_updated`
to the run date while the (empty) metric fields stay as persisted. -/
theorem c10_witness :
    (updateAnalytics emptyAnalytics none "2026-10-12").last_updated = some "2026-10-12" ∧
    updateAnalytics emptyAnalytics none "2026-10-12" =
      { emptyAnalytics with last_updated := some "2026-10-12" } ∧
    ({ analytics := updateAnalytics sampleState1.analytics none "2026-10-12"
       payouts := [sampleCreator1]
       distribution_payouts := [sampleDist1] } : PersistedState).analytics =
      updateAnalytics sampleState1.analytics none "2026-10-12" := by
  refine ⟨c10_theorem.1 emptyAnalytics none "2026-10-12",
    c10_theorem.2.1 emptyAnalytics "2026-10-12", ?_⟩
  exact c10_theorem.2.2.2 sampleState1 (Except.ok ([sampleDist1], [sampleCreator1]))
    none "2026-10-12" _ (by rfl)

end KajabiTracker
